import Mathlib

/-!
Verification of `sentinelsat_utils/query.py`: a retry wrapper (`loop_query`)
around a remote query operation, three aggregators (`query_tiles_dates`,
`query_dates`, `query_rel_orbit_numbers`) that fan a query space into repeated
calls and merge the resulting ordered dictionaries, and a best-effort cleanup
helper (`delete_empty`).

The Python data structures are shallowly embedded: `dict` / `OrderedDict`
become insertion-ordered association lists (`Dict`), `datetime.datetime`
values carrying dates become `Date` triples compared lexicographically,
exceptions become explicit outcome constructors, and the external
`api.query` collaborator becomes a function from query parameters and
attempt index to an outcome.
-/

set_option autoImplicit false

namespace SentinelsatUtils

/-- A calendar date, standing for the `datetime.datetime` values produced by
`dateutil.parser.parse` on date strings (midnight time component). -/
structure Date where
  year : Nat
  month : Nat
  day : Nat
deriving DecidableEq, Repr

/-- Python `datetime` comparison restricted to dates: lexicographic on
(year, month, day). -/
def Date.lt (a b : Date) : Bool :=
  a.year < b.year ||
    (a.year == b.year &&
      (a.month < b.month || (a.month == b.month && a.day < b.day)))

/-- Gregorian leap-year test, as used by `datetime.timedelta` arithmetic. -/
def isLeapYear (y : Nat) : Bool :=
  (y % 4 == 0 && y % 100 != 0) || y % 400 == 0

/-- Number of days in a month of the Gregorian calendar. -/
def daysInMonth (y m : Nat) : Nat :=
  if m == 2 then (if isLeapYear y then 29 else 28)
  else if m == 4 || m == 6 || m == 9 || m == 11 then 30
  else 31

/-- `start_date + datetime.timedelta(days=1)` on the date component. -/
def Date.addOneDay (d : Date) : Date :=
  if d.day < daysInMonth d.year d.month then ⟨d.year, d.month, d.day + 1⟩
  else if d.month < 12 then ⟨d.year, d.month + 1, 1⟩
  else ⟨d.year + 1, 1, 1⟩

/-- A Python `dict` / `OrderedDict`: an insertion-ordered association list.
Keys are unique in every dictionary the program builds. -/
abbrev Dict (α β : Type) := List (α × β)

/-- Python `d[k] = v`: overwrite the value in place at the first occurrence of
the key, keeping its position; append the pair at the end for a new key. -/
def Dict.set {α β : Type} [DecidableEq α] : Dict α β → α → β → Dict α β
  | [], k, v => [(k, v)]
  | p :: d, k, v => if p.1 = k then (k, v) :: d else p :: Dict.set d k v

/-- Python `d.get(k)` / `d[k]`: the value at the first occurrence of the key. -/
def Dict.lookup {α β : Type} [DecidableEq α] : Dict α β → α → Option β
  | [], _ => none
  | p :: d, k => if p.1 = k then some p.2 else Dict.lookup d k

/-- The keys of a dictionary, in insertion order. -/
def Dict.keys {α β : Type} (d : Dict α β) : List α :=
  d.map (·.1)

/-- Python `d.update(e)` (also `OrderedDict.update`): assign every pair of `e`
into `d` in iteration order. -/
def Dict.update {α β : Type} [DecidableEq α] (d e : Dict α β) : Dict α β :=
  e.foldl (fun acc p => Dict.set acc p.1 p.2) d

/-- A query-parameter value: strings (tile codes, filename globs, orbit
numbers) or the `(start_date, end_date)` tuple stored under `'date'`. -/
inductive PVal where
  | str (s : String)
  | dateRange (startDate endDate : Date)
deriving DecidableEq, Repr

/-- The `query_kwargs` mapping passed to `api.query`. -/
abbrev Params := Dict String PVal

/-- Outcome of one call of the external `api.query` collaborator: a result,
a raised `SentinelAPIError` (recoverable), or any other raised exception. -/
inductive Outcome (ε ρ : Type) where
  | ok (r : ρ)
  | sentinelAPIError (e : ε)
  | otherError (e : ε)
deriving DecidableEq, Repr

/-- How a `loop_query` call ends: a returned result, a raised exception, or
Python's implicit `None` return when the loop body never runs. -/
inductive LoopOutcome (ε ρ : Type) where
  | value (r : ρ)
  | raised (e : ε)
  | noneReturn
deriving DecidableEq, Repr

/-- Observable behaviour of one `loop_query` call: how many times `api.query`
was invoked, total seconds slept, and how the call ended. -/
structure LoopTrace (ε ρ : Type) where
  calls : Nat
  waitSeconds : Nat
  outcome : LoopOutcome ε ρ
deriving DecidableEq, Repr

/-- The `for _ in range(max_retries)` loop of `loop_query`, with the remaining
iteration count as fuel.  Arguments after the timeout: fuel, attempt index,
`err_reraise`, calls so far, seconds slept so far.  Each iteration calls the
query; on success it returns, on `SentinelAPIError` it records the error and
either breaks (falsy timeout, the recorded error is then re-raised) or sleeps
`timeout_minutes * 6` times 10 seconds and continues; any other exception
propagates.  When the fuel runs out, `err_reraise` is re-raised if set,
otherwise the function falls through and returns `None`. -/
def loopQueryGo {ε ρ : Type} (query : Nat → Outcome ε ρ)
    (timeoutMinutes : Option Nat) :
    Nat → Nat → Option ε → Nat → Nat → LoopTrace ε ρ
  | 0, _, errReraise, calls, waited =>
    ⟨calls, waited,
      match errReraise with
      | some e => .raised e
      | none => .noneReturn⟩
  | fuel + 1, attempt, _, calls, waited =>
    match query attempt with
    | .ok r => ⟨calls + 1, waited, .value r⟩
    | .otherError e => ⟨calls + 1, waited, .raised e⟩
    | .sentinelAPIError e =>
      match timeoutMinutes with
      | none => ⟨calls + 1, waited, .raised e⟩
      | some 0 => ⟨calls + 1, waited, .raised e⟩
      | some (m + 1) =>
        loopQueryGo query timeoutMinutes fuel (attempt + 1) (some e)
          (calls + 1) (waited + (m + 1) * 60)

/-- `loop_query(api, query_kwargs, max_retries, timeout_minutes)`.  The
external `api.query` is modelled as a function of the keyword arguments and of
the attempt index (so that successive attempts may behave differently);
`timeout_minutes = None` is `none` and a number `n` is `some n` (Python
truthiness of `not timeout_minutes` holds exactly for `none` and `some 0`). -/
def loop_query {ε ρ : Type} (api : Params → Nat → Outcome ε ρ)
    (query_kwargs : Params) (max_retries : Nat) (timeout_minutes : Option Nat) :
    LoopTrace ε ρ :=
  loopQueryGo (api query_kwargs) timeout_minutes max_retries 0 none 0 0

/-- How an aggregator call can fail: the `ValueError` raised for pre-2016-11
tile searches, an exception propagating out of `loop_query`, or the
`TypeError` Python would raise on `products.update(None)` / `len(None)` when
`loop_query` falls through with `max_retries <= 0`. -/
inductive AggError (ε : Type) where
  | valueError (msg : String)
  | apiError (e : ε)
  | typeError
deriving DecidableEq, Repr

/-- The per-iteration keyword arguments of `query_tiles_dates`: copy the base
`query_kwargs`, set `'date'` to `(start_date, start_date + 1 day)`, then apply
the date-dependent tile-filter policy (raising `ValueError` for dates before
2016-11-01, a `'filename'` glob before 2017-03-31, a `'tileid'` field
otherwise). -/
def tile_date_kw (query_kwargs : Params) (tile : String) (start_date : Date) :
    Except String Params :=
  let kw := Dict.set query_kwargs "date"
    (.dateRange start_date start_date.addOneDay)
  if start_date.lt ⟨2016, 11, 1⟩ then
    .error "Search by tile works only for single-tile (past 11/2016) format."
  else if start_date.lt ⟨2017, 3, 31⟩ then
    .ok (Dict.set kw "filename" (.str ("*_T" ++ tile ++ "_*")))
  else
    .ok (Dict.set kw "tileid" (.str tile))

/-- The inner `for date in tiles_dates[tile]` loop of `query_tiles_dates`.
Accumulates the merged products and the list of keyword-argument dictionaries
passed to `loop_query`, in call order. -/
def qtdDatesGo {ε μ σ : Type} (api : Params → Nat → Outcome ε (Dict String μ))
    (max_retries : Nat) (timeout_minutes : Option Nat) (parse : σ → Date)
    (query_kwargs : Params) (tile : String) :
    List σ → Dict String μ → List Params →
      List Params × Except (AggError ε) (Dict String μ)
  | [], products, calls => (calls, .ok products)
  | date :: dates, products, calls =>
    match tile_date_kw query_kwargs tile (parse date) with
    | .error msg => (calls, .error (.valueError msg))
    | .ok kw =>
      match (loop_query api kw max_retries timeout_minutes).outcome with
      | .value pp =>
        qtdDatesGo api max_retries timeout_minutes parse query_kwargs tile
          dates (Dict.update products pp) (calls ++ [kw])
      | .raised e => (calls ++ [kw], .error (.apiError e))
      | .noneReturn => (calls ++ [kw], .error .typeError)

/-- The outer `for tile in tiles_dates` loop of `query_tiles_dates`. -/
def qtdTilesGo {ε μ σ : Type} (api : Params → Nat → Outcome ε (Dict String μ))
    (max_retries : Nat) (timeout_minutes : Option Nat) (parse : σ → Date)
    (query_kwargs : Params) :
    List (String × List σ) → Dict String μ → List Params →
      List Params × Except (AggError ε) (Dict String μ)
  | [], products, calls => (calls, .ok products)
  | (tile, dates) :: rest, products, calls =>
    match qtdDatesGo api max_retries timeout_minutes parse query_kwargs tile
        dates products calls with
    | (calls2, .ok products2) =>
      qtdTilesGo api max_retries timeout_minutes parse query_kwargs rest
        products2 calls2
    | (calls2, .error e) => (calls2, .error e)

/-- `query_tiles_dates(api, tiles_dates, query_kwargs, loop_kwargs)`.
`tiles_dates` is an insertion-ordered mapping from tile name to a list of date
strings; the external `dateutil.parser.parse` collaborator is the `parse`
argument; `loop_kwargs` is expanded into `max_retries` / `timeout_minutes`.
Returns the `loop_query` call trace together with either the accumulated
`OrderedDict` of products or the exception terminating the call. -/
def query_tiles_dates {ε μ σ : Type}
    (api : Params → Nat → Outcome ε (Dict String μ))
    (tiles_dates : List (String × List σ)) (query_kwargs : Params)
    (parse : σ → Date) (max_retries : Nat) (timeout_minutes : Option Nat) :
    List Params × Except (AggError ε) (Dict String μ) :=
  qtdTilesGo api max_retries timeout_minutes parse query_kwargs tiles_dates
    [] []

/-- The per-iteration keyword arguments of `query_dates`: copy the base
`query_kwargs` and set `'date'` to `(start_date, start_date + 1 day)`. -/
def date_kw (query_kwargs : Params) (start_date : Date) : Params :=
  Dict.set query_kwargs "date" (.dateRange start_date start_date.addOneDay)

/-- The `for date in dates` loop of `query_dates`. -/
def qdGo {ε μ σ : Type} (api : Params → Nat → Outcome ε (Dict String μ))
    (max_retries : Nat) (timeout_minutes : Option Nat) (parse : σ → Date)
    (query_kwargs : Params) :
    List σ → Dict String μ → List Params →
      List Params × Except (AggError ε) (Dict String μ)
  | [], products, calls => (calls, .ok products)
  | date :: dates, products, calls =>
    match (loop_query api (date_kw query_kwargs (parse date)) max_retries
        timeout_minutes).outcome with
    | .value pp =>
      qdGo api max_retries timeout_minutes parse query_kwargs dates
        (Dict.update products pp)
        (calls ++ [date_kw query_kwargs (parse date)])
    | .raised e =>
      (calls ++ [date_kw query_kwargs (parse date)], .error (.apiError e))
    | .noneReturn =>
      (calls ++ [date_kw query_kwargs (parse date)], .error .typeError)

/-- `query_dates(api, dates, query_kwargs, loop_kwargs)`. -/
def query_dates {ε μ σ : Type} (api : Params → Nat → Outcome ε (Dict String μ))
    (dates : List σ) (query_kwargs : Params) (parse : σ → Date)
    (max_retries : Nat) (timeout_minutes : Option Nat) :
    List Params × Except (AggError ε) (Dict String μ) :=
  qdGo api max_retries timeout_minutes parse query_kwargs dates [] []

/-- The per-iteration keyword arguments of `query_rel_orbit_numbers`: copy the
base `query_kwargs` and set `'relativeorbitnumber'` to `str(ron)`. -/
def ron_kw (query_kwargs : Params) (ron : Int) : Params :=
  Dict.set query_kwargs "relativeorbitnumber" (.str (toString ron))

/-- The `for ron in rel_orbit_numbers` loop of `query_rel_orbit_numbers`. -/
def qronGo {ε μ : Type} (api : Params → Nat → Outcome ε (Dict String μ))
    (max_retries : Nat) (timeout_minutes : Option Nat)
    (query_kwargs : Params) :
    List Int → Dict String μ → List Params →
      List Params × Except (AggError ε) (Dict String μ)
  | [], products, calls => (calls, .ok products)
  | ron :: rons, products, calls =>
    match (loop_query api (ron_kw query_kwargs ron) max_retries
        timeout_minutes).outcome with
    | .value pp =>
      qronGo api max_retries timeout_minutes query_kwargs rons
        (Dict.update products pp) (calls ++ [ron_kw query_kwargs ron])
    | .raised e => (calls ++ [ron_kw query_kwargs ron], .error (.apiError e))
    | .noneReturn => (calls ++ [ron_kw query_kwargs ron], .error .typeError)

/-- `query_rel_orbit_numbers(api, rel_orbit_numbers, query_kwargs,
loop_kwargs)`. -/
def query_rel_orbit_numbers {ε μ : Type}
    (api : Params → Nat → Outcome ε (Dict String μ))
    (rel_orbit_numbers : List Int) (query_kwargs : Params)
    (max_retries : Nat) (timeout_minutes : Option Nat) :
    List Params × Except (AggError ε) (Dict String μ) :=
  qronGo api max_retries timeout_minutes query_kwargs rel_orbit_numbers [] []

/-- The file system seen by `delete_empty`: `os.path.getsize` returns the size
of a path or raises (`none`); `os.remove` raises `OSError` on the paths where
`removeRaises` holds. -/
structure FileSystem where
  getsize : String → Option Nat
  removeRaises : String → Bool

/-- Exceptions that propagate out of `delete_empty`: a missing `'path'` key in
a product record, or `os.path.getsize` raising on a missing file. -/
inductive DeleteError where
  | keyError
  | osError
deriving DecidableEq, Repr

/-- Observable behaviour of `delete_empty`: the paths on which `os.remove` was
attempted (in order) and the paths for which a deletion failure was logged as
a warning. -/
structure DeleteTrace where
  attempts : List String
  warnings : List String
deriving DecidableEq, Repr

/-- The `for key in results` loop of `delete_empty`: look up
`results[key]['path']`, stat it, and if the size is zero attempt `os.remove`,
catching `OSError` and logging a warning.  A successful removal deletes the
path from the file system. -/
def deleteEmptyGo :
    FileSystem → List (String × Dict String String) → DeleteTrace →
      Except DeleteError (DeleteTrace × FileSystem)
  | fs, [], tr => .ok (tr, fs)
  | fs, (_, record) :: rest, tr =>
    match Dict.lookup record "path" with
    | none => .error .keyError
    | some zipfile =>
      match fs.getsize zipfile with
      | none => .error .osError
      | some (_ + 1) => deleteEmptyGo fs rest tr
      | some 0 =>
        if fs.removeRaises zipfile then
          deleteEmptyGo fs rest
            ⟨tr.attempts ++ [zipfile], tr.warnings ++ [zipfile]⟩
        else
          deleteEmptyGo
            ⟨fun p => if p = zipfile then none else fs.getsize p,
              fs.removeRaises⟩
            rest ⟨tr.attempts ++ [zipfile], tr.warnings⟩

/-- `delete_empty(results)`: results map product keys to records holding at
least a `'path'` field. -/
def delete_empty (results : List (String × Dict String String))
    (fs : FileSystem) : Except DeleteError (DeleteTrace × FileSystem) :=
  deleteEmptyGo fs results ⟨[], []⟩

/-- The `'path'` fields recorded in a result collection, in iteration
order. -/
def recordedPaths (results : List (String × Dict String String)) :
    List String :=
  results.filterMap (fun p => Dict.lookup p.2 "path")

/-! ## Behaviour of the retry wrapper -/

theorem loopQueryGo_all_recoverable {ε ρ : Type} (query : Nat → Outcome ε ρ)
    (m : Nat) (e : Nat → ε) (h : ∀ i, query i = .sentinelAPIError (e i)) :
    ∀ fuel, 1 ≤ fuel → ∀ attempt errR calls waited,
      loopQueryGo query (some (m + 1)) fuel attempt errR calls waited =
        ⟨calls + fuel, waited + fuel * ((m + 1) * 60),
          .raised (e (attempt + fuel - 1))⟩ := by
  intro fuel
  induction fuel with
  | zero => omega
  | succ f ih =>
    intro _ attempt errR calls waited
    rw [loopQueryGo, h attempt]
    cases f with
    | zero => simp [loopQueryGo]
    | succ g =>
      show loopQueryGo query (some (m + 1)) (g + 1) (attempt + 1)
          (some (e attempt)) (calls + 1) (waited + (m + 1) * 60) = _
      rw [ih (by omega) (attempt + 1) (some (e attempt)) (calls + 1)
        (waited + (m + 1) * 60)]
      simp only [LoopTrace.mk.injEq]
      refine ⟨by omega, by ring, ?_⟩
      have harg : attempt + 1 + (g + 1) - 1 = attempt + (g + 1 + 1) - 1 := by
        omega
      rw [harg]

/-- Claim C1: with a truthy `timeout_minutes` and a query operation that
raises the recoverable `SentinelAPIError` on every call, `loop_query` with
`max_retries = N >= 1` invokes the query exactly `N` times and then re-raises
the last observed error (waiting `timeout_minutes * 60` seconds after each
failed attempt). -/
theorem loop_query_exhausts_retries_then_reraises {ε ρ : Type}
    (api : Params → Nat → Outcome ε ρ) (query_kwargs : Params) (N tm : Nat)
    (e : Nat → ε) (hN : 1 ≤ N) (htm : tm ≠ 0)
    (h : ∀ i, api query_kwargs i = .sentinelAPIError (e i)) :
    loop_query api query_kwargs N (some tm) =
      ⟨N, N * (tm * 60), .raised (e (N - 1))⟩ := by
  obtain ⟨m, rfl⟩ : ∃ m, tm = m + 1 :=
    ⟨tm - 1, by omega⟩
  rw [loop_query, loopQueryGo_all_recoverable (api query_kwargs) m e h N hN]
  simp

theorem loop_query_exhausts_retries_then_reraises_witness :
    loop_query (ε := Nat) (ρ := Dict String Nat)
        (fun _ i => .sentinelAPIError (i + 100)) [] 3 (some 5) =
      ⟨3, 900, .raised 102⟩ :=
  loop_query_exhausts_retries_then_reraises
    (fun _ i => .sentinelAPIError (i + 100)) [] 3 5 (fun i => i + 100)
    (by omega) (by omega) (fun _ => rfl)

/-- Claim C2: if `timeout_minutes` is `None` or `0` and the query operation
raises the recoverable error on its first call, `loop_query` with any
`max_retries >= 1` invokes the query exactly once, sleeps for zero seconds,
and re-raises that error. -/
theorem loop_query_falsy_timeout_single_attempt {ε ρ : Type}
    (api : Params → Nat → Outcome ε ρ) (query_kwargs : Params)
    (max_retries : Nat) (timeout_minutes : Option Nat) (e : ε)
    (hmr : 1 ≤ max_retries)
    (htm : timeout_minutes = none ∨ timeout_minutes = some 0)
    (h : api query_kwargs 0 = .sentinelAPIError e) :
    loop_query api query_kwargs max_retries timeout_minutes =
      ⟨1, 0, .raised e⟩ := by
  cases max_retries with
  | zero => omega
  | succ n =>
    rcases htm with rfl | rfl <;>
      · rw [loop_query, loopQueryGo, h]

theorem loop_query_falsy_timeout_single_attempt_witness :
    loop_query (ε := Nat) (ρ := Dict String Nat)
        (fun _ _ => .sentinelAPIError 42) [] 5 (some 0) =
      ⟨1, 0, .raised 42⟩ :=
  loop_query_falsy_timeout_single_attempt (fun _ _ => .sentinelAPIError 42)
    [] 5 (some 0) 42 (by omega) (Or.inr rfl) rfl

/-- Claim C6: if the query operation succeeds on the first attempt,
`loop_query` with any `max_retries >= 1` returns that result unchanged after
exactly one invocation and zero seconds of sleep. -/
theorem loop_query_first_success_returns {ε ρ : Type}
    (api : Params → Nat → Outcome ε ρ) (query_kwargs : Params)
    (max_retries : Nat) (timeout_minutes : Option Nat) (r : ρ)
    (hmr : 1 ≤ max_retries) (h : api query_kwargs 0 = .ok r) :
    loop_query api query_kwargs max_retries timeout_minutes =
      ⟨1, 0, .value r⟩ := by
  cases max_retries with
  | zero => omega
  | succ n => rw [loop_query, loopQueryGo, h]

theorem loop_query_first_success_returns_witness :
    loop_query (ε := Nat) (ρ := Dict String Nat)
        (fun _ _ => .ok [("product1", 7)]) [] 5 (some 5) =
      ⟨1, 0, .value [("product1", 7)]⟩ :=
  loop_query_first_success_returns (fun _ _ => .ok [("product1", 7)]) [] 5
    (some 5) [("product1", 7)] (by omega) rfl

/-- Claim C7: if the query operation raises an exception other than the
recoverable `SentinelAPIError` on the first call, `loop_query` propagates it
after exactly one invocation, with no sleep, for every `max_retries >= 1` and
every `timeout_minutes`. -/
theorem loop_query_other_error_propagates {ε ρ : Type}
    (api : Params → Nat → Outcome ε ρ) (query_kwargs : Params)
    (max_retries : Nat) (timeout_minutes : Option Nat) (e : ε)
    (hmr : 1 ≤ max_retries) (h : api query_kwargs 0 = .otherError e) :
    loop_query api query_kwargs max_retries timeout_minutes =
      ⟨1, 0, .raised e⟩ := by
  cases max_retries with
  | zero => omega
  | succ n => rw [loop_query, loopQueryGo, h]

theorem loop_query_other_error_propagates_witness :
    loop_query (ε := Nat) (ρ := Dict String Nat)
        (fun _ _ => .otherError 7) [] 5 (some 5) =
      ⟨1, 0, .raised 7⟩ :=
  loop_query_other_error_propagates (fun _ _ => .otherError 7) [] 5 (some 5)
    7 (by omega) rfl

/-- Claim C10: with `max_retries = 0` the `for` loop body never runs, so
`loop_query` invokes the query operation zero times, raises nothing, and
falls through returning Python's implicit `None`. -/
theorem loop_query_zero_retries_returns_none {ε ρ : Type}
    (api : Params → Nat → Outcome ε ρ) (query_kwargs : Params)
    (timeout_minutes : Option Nat) :
    loop_query api query_kwargs 0 timeout_minutes = ⟨0, 0, .noneReturn⟩ :=
  rfl

/-! ## Ordered-dictionary assignment and merge -/

theorem Dict.lookup_set {α β : Type} [DecidableEq α] (d : Dict α β)
    (k k' : α) (v : β) :
    Dict.lookup (Dict.set d k v) k' =
      if k' = k then some v else Dict.lookup d k' := by
  induction d with
  | nil => simp [Dict.set, Dict.lookup, eq_comm]
  | cons p d ih =>
    simp only [Dict.set, Dict.lookup]
    split_ifs with h1 h2 h3 <;> simp_all [Dict.lookup, eq_comm]

theorem Dict.keys_set {α β : Type} [DecidableEq α] (d : Dict α β) (k : α)
    (v : β) :
    Dict.keys (Dict.set d k v) =
      if k ∈ Dict.keys d then Dict.keys d else Dict.keys d ++ [k] := by
  induction d with
  | nil => simp [Dict.set, Dict.keys]
  | cons p d ih =>
    simp only [Dict.set, Dict.keys]
    split_ifs with h1 h2 h3 <;> simp_all [Dict.keys, eq_comm]

theorem Dict.lookup_eq_none_of_not_mem {α β : Type} [DecidableEq α]
    (d : Dict α β) (k : α) (h : k ∉ Dict.keys d) :
    Dict.lookup d k = none := by
  induction d with
  | nil => rfl
  | cons p d ih => simp_all [Dict.lookup, Dict.keys, eq_comm]

theorem Dict.keys_update {α β : Type} [DecidableEq α] (d e : Dict α β)
    (he : (Dict.keys e).Nodup) :
    Dict.keys (Dict.update d e) =
      Dict.keys d ++
        (Dict.keys e).filter (fun k => decide (k ∉ Dict.keys d)) := by
  induction e generalizing d with
  | nil => simp [Dict.update, Dict.keys]
  | cons p e ih =>
    have hk : p.1 ∉ Dict.keys e := by
      simpa [Dict.keys] using List.Nodup.not_mem he
    have he' : (Dict.keys e).Nodup := by
      simpa [Dict.keys] using List.Nodup.of_cons he
    have hstep : Dict.update d (p :: e) = Dict.update (Dict.set d p.1 p.2) e :=
      rfl
    rw [hstep, ih (Dict.set d p.1 p.2) he', Dict.keys_set]
    by_cases hd : p.1 ∈ Dict.keys d
    · rw [if_pos hd]
      have hfilter : (Dict.keys (p :: e)).filter
            (fun k => decide (k ∉ Dict.keys d)) =
          (Dict.keys e).filter (fun k => decide (k ∉ Dict.keys d)) := by
        have hkeys : Dict.keys (p :: e) = p.1 :: Dict.keys e := rfl
        rw [hkeys, List.filter_cons]
        simp [hd]
      rw [hfilter]
    · rw [if_neg hd]
      have hfilter : (Dict.keys e).filter
            (fun k => decide (k ∉ Dict.keys d ++ [p.1])) =
          (Dict.keys e).filter (fun k => decide (k ∉ Dict.keys d)) := by
        refine List.filter_congr ?_
        intro x hx
        have hxk : x ≠ p.1 := fun hxe => hk (hxe ▸ hx)
        simp [hxk]
      rw [hfilter]
      have hcons : (Dict.keys (p :: e)).filter
            (fun k => decide (k ∉ Dict.keys d)) =
          p.1 :: (Dict.keys e).filter (fun k => decide (k ∉ Dict.keys d)) := by
        have hkeys : Dict.keys (p :: e) = p.1 :: Dict.keys e := rfl
        rw [hkeys, List.filter_cons]
        simp [hd]
      rw [hcons, List.append_assoc]
      rfl

theorem Dict.lookup_update {α β : Type} [DecidableEq α] (d e : Dict α β)
    (k : α) (he : (Dict.keys e).Nodup) :
    Dict.lookup (Dict.update d e) k =
      match Dict.lookup e k with
      | some v => some v
      | none => Dict.lookup d k := by
  induction e generalizing d with
  | nil => simp [Dict.update, Dict.lookup]
  | cons p e ih =>
    have hk : p.1 ∉ Dict.keys e := by
      simpa [Dict.keys] using List.Nodup.not_mem he
    have he' : (Dict.keys e).Nodup := by
      simpa [Dict.keys] using List.Nodup.of_cons he
    have hstep : Dict.update d (p :: e) = Dict.update (Dict.set d p.1 p.2) e :=
      rfl
    rw [hstep, ih (Dict.set d p.1 p.2) he']
    by_cases hkp : k = p.1
    · have h1 : Dict.lookup e k = none :=
        Dict.lookup_eq_none_of_not_mem e k (by rw [hkp]; exact hk)
      rw [h1]
      simp [Dict.lookup, Dict.lookup_set, hkp]
    · have hpk : ¬ p.1 = k := fun h => hkp h.symm
      simp only [Dict.lookup, if_neg hpk, Dict.lookup_set, if_neg hkp]

/-- Claim C5: merging result collections with `OrderedDict.update` preserves
first-insertion order of keys — the merged key sequence is the accumulator's
keys followed by the genuinely new keys of the merged collection, in its
iteration order — and a duplicate key takes the newly merged value while
keeping its original position. -/
theorem ordered_update_preserves_insertion_order {β : Type}
    (d e : Dict String β) (he : (Dict.keys e).Nodup) :
    Dict.keys (Dict.update d e) =
        Dict.keys d ++
          (Dict.keys e).filter (fun k => decide (k ∉ Dict.keys d)) ∧
      (∀ k v, Dict.lookup e k = some v →
        Dict.lookup (Dict.update d e) k = some v) ∧
      (∀ k, Dict.lookup e k = none →
        Dict.lookup (Dict.update d e) k = Dict.lookup d k) := by
  refine ⟨Dict.keys_update d e he, ?_, ?_⟩
  · intro k v hv
    rw [Dict.lookup_update d e k he, hv]
  · intro k hv
    rw [Dict.lookup_update d e k he, hv]

theorem ordered_update_preserves_insertion_order_witness :
    Dict.keys (Dict.update [("A", PVal.str "x")]
          [("A", PVal.str "y"), ("B", PVal.str "z")]) =
        Dict.keys [("A", PVal.str "x")] ++
          (Dict.keys [("A", PVal.str "y"), ("B", PVal.str "z")]).filter
            (fun k => decide (k ∉ Dict.keys [("A", PVal.str "x")])) ∧
      (∀ k v, Dict.lookup [("A", PVal.str "y"), ("B", PVal.str "z")] k =
          some v →
        Dict.lookup (Dict.update [("A", PVal.str "x")]
          [("A", PVal.str "y"), ("B", PVal.str "z")]) k = some v) ∧
      (∀ k, Dict.lookup [("A", PVal.str "y"), ("B", PVal.str "z")] k =
          none →
        Dict.lookup (Dict.update [("A", PVal.str "x")]
            [("A", PVal.str "y"), ("B", PVal.str "z")]) k =
          Dict.lookup [("A", PVal.str "x")] k) :=
  ordered_update_preserves_insertion_order
    [("A", PVal.str "x")] [("A", PVal.str "y"), ("B", PVal.str "z")]
    (by decide)

/-! ## The tile/date aggregator -/

/-- Claim C3: whenever the first date of the first tile parses to a date
strictly before 2016-11-01, `query_tiles_dates` raises the `ValueError`
("search by tile works only for single-tile format") before invoking the
query operation, so the call trace is empty. -/
theorem query_tiles_dates_pre2016_unsupported {ε μ σ : Type}
    (api : Params → Nat → Outcome ε (Dict String μ)) (parse : σ → Date)
    (tile : String) (d : σ) (ds : List σ) (rest : List (String × List σ))
    (query_kwargs : Params) (max_retries : Nat)
    (timeout_minutes : Option Nat)
    (h : (parse d).lt ⟨2016, 11, 1⟩ = true) :
    query_tiles_dates api ((tile, d :: ds) :: rest) query_kwargs parse
        max_retries timeout_minutes =
      ([], .error (.valueError
        "Search by tile works only for single-tile (past 11/2016) format.")) := by
  simp [query_tiles_dates, qtdTilesGo, qtdDatesGo, tile_date_kw, h]

theorem query_tiles_dates_pre2016_unsupported_witness :
    query_tiles_dates (ε := Nat) (μ := Nat) (fun _ _ => .ok [])
        [("31TCJ", [(⟨2016, 6, 1⟩ : Date)])] [] id 5 (some 5) =
      ([], .error (.valueError
        "Search by tile works only for single-tile (past 11/2016) format.")) :=
  query_tiles_dates_pre2016_unsupported (fun _ _ => .ok []) id "31TCJ"
    ⟨2016, 6, 1⟩ [] [] [] 5 (some 5) (by decide)

theorem qtd_single_call {ε μ σ : Type}
    (api : Params → Nat → Outcome ε (Dict String μ)) (parse : σ → Date)
    (tile : String) (d : σ) (query_kwargs kw : Params) (max_retries : Nat)
    (timeout_minutes : Option Nat)
    (hkw : tile_date_kw query_kwargs tile (parse d) = .ok kw) :
    (query_tiles_dates api [(tile, [d])] query_kwargs parse max_retries
      timeout_minutes).1 = [kw] := by
  rw [query_tiles_dates, qtdTilesGo, qtdDatesGo, hkw]
  rcases hout : (loop_query api kw max_retries timeout_minutes).outcome with
      r | e | _ <;>
    simp [hout, qtdDatesGo, qtdTilesGo]

/-- Claim C4: for a parsed start date on or after 2016-11-01, the single
query invocation of `query_tiles_dates` receives parameters carrying exactly
one tile filter: a `'filename'` glob `*_T<tile>_*` when the date is strictly
before 2017-03-31, and a direct `'tileid'` field equal to the tile code
otherwise (the base parameters containing neither filter). -/
theorem query_tiles_dates_tile_filter_policy {ε μ σ : Type}
    (api : Params → Nat → Outcome ε (Dict String μ)) (parse : σ → Date)
    (tile : String) (d : σ) (query_kwargs : Params) (max_retries : Nat)
    (timeout_minutes : Option Nat)
    (h1 : (parse d).lt ⟨2016, 11, 1⟩ = false)
    (hf : Dict.lookup query_kwargs "filename" = none)
    (ht : Dict.lookup query_kwargs "tileid" = none) :
    ∃ kw, (query_tiles_dates api [(tile, [d])] query_kwargs parse max_retries
          timeout_minutes).1 = [kw] ∧
      ((parse d).lt ⟨2017, 3, 31⟩ = true →
        Dict.lookup kw "filename" = some (.str ("*_T" ++ tile ++ "_*")) ∧
        Dict.lookup kw "tileid" = none) ∧
      ((parse d).lt ⟨2017, 3, 31⟩ = false →
        Dict.lookup kw "tileid" = some (.str tile) ∧
        Dict.lookup kw "filename" = none) := by
  by_cases h2 : (parse d).lt ⟨2017, 3, 31⟩ = true
  · refine ⟨Dict.set (Dict.set query_kwargs "date"
        (.dateRange (parse d) (parse d).addOneDay)) "filename"
        (.str ("*_T" ++ tile ++ "_*")), ?_, ?_, ?_⟩
    · exact qtd_single_call api parse tile d query_kwargs _ max_retries
        timeout_minutes (by rw [tile_date_kw]; simp [h1, h2])
    · intro _
      constructor
      · rw [Dict.lookup_set, if_pos rfl]
      · rw [Dict.lookup_set, if_neg (by decide), Dict.lookup_set,
          if_neg (by decide), ht]
    · intro hcontra
      rw [h2] at hcontra
      exact absurd hcontra (by decide)
  · have h2' : (parse d).lt ⟨2017, 3, 31⟩ = false := by
      cases hlt : (parse d).lt ⟨2017, 3, 31⟩
      · rfl
      · exact absurd hlt h2
    refine ⟨Dict.set (Dict.set query_kwargs "date"
        (.dateRange (parse d) (parse d).addOneDay)) "tileid" (.str tile),
        ?_, ?_, ?_⟩
    · exact qtd_single_call api parse tile d query_kwargs _ max_retries
        timeout_minutes (by rw [tile_date_kw]; simp [h1, h2'])
    · intro hcontra
      rw [h2'] at hcontra
      exact absurd hcontra (by decide)
    · intro _
      constructor
      · rw [Dict.lookup_set, if_pos rfl]
      · rw [Dict.lookup_set, if_neg (by decide), Dict.lookup_set,
          if_neg (by decide), hf]

theorem query_tiles_dates_tile_filter_policy_witness :
    (∃ kw, (query_tiles_dates (ε := Nat) (μ := Nat) (fun _ _ => .ok [])
          [("31TCJ", [(⟨2017, 1, 15⟩ : Date)])] [] id 5 (some 5)).1 = [kw] ∧
      ((⟨2017, 1, 15⟩ : Date).lt ⟨2017, 3, 31⟩ = true →
        Dict.lookup kw "filename" = some (.str "*_T31TCJ_*") ∧
        Dict.lookup kw "tileid" = none) ∧
      ((⟨2017, 1, 15⟩ : Date).lt ⟨2017, 3, 31⟩ = false →
        Dict.lookup kw "tileid" = some (.str "31TCJ") ∧
        Dict.lookup kw "filename" = none)) ∧
    (∃ kw, (query_tiles_dates (ε := Nat) (μ := Nat) (fun _ _ => .ok [])
          [("31TCJ", [(⟨2017, 6, 1⟩ : Date)])] [] id 5 (some 5)).1 = [kw] ∧
      ((⟨2017, 6, 1⟩ : Date).lt ⟨2017, 3, 31⟩ = true →
        Dict.lookup kw "filename" = some (.str "*_T31TCJ_*") ∧
        Dict.lookup kw "tileid" = none) ∧
      ((⟨2017, 6, 1⟩ : Date).lt ⟨2017, 3, 31⟩ = false →
        Dict.lookup kw "tileid" = some (.str "31TCJ") ∧
        Dict.lookup kw "filename" = none)) :=
  ⟨query_tiles_dates_tile_filter_policy (fun _ _ => .ok []) id "31TCJ"
      ⟨2017, 1, 15⟩ [] 5 (some 5) (by decide) rfl rfl,
    query_tiles_dates_tile_filter_policy (fun _ _ => .ok []) id "31TCJ"
      ⟨2017, 6, 1⟩ [] 5 (some 5) (by decide) rfl rfl⟩

/-! ## Per-iteration parameters always derive from the base parameters -/

theorem mem_append_singleton {α : Type} {x y : α} {l : List α}
    (h : x ∈ l ++ [y]) : x ∈ l ∨ x = y := by
  rcases List.mem_append.1 h with h1 | h2
  · exact Or.inl h1
  · exact Or.inr (List.mem_singleton.1 h2)

theorem qtdDatesGo_calls_mem {ε μ σ : Type}
    (api : Params → Nat → Outcome ε (Dict String μ)) (mr : Nat)
    (tm : Option Nat) (parse : σ → Date) (base : Params) (tile : String) :
    ∀ (dates : List σ) (products : Dict String μ) (calls : List Params)
      (kw : Params),
      kw ∈ (qtdDatesGo api mr tm parse base tile dates products calls).1 →
      kw ∈ calls ∨
        ∃ d ∈ dates, tile_date_kw base tile (parse d) = .ok kw := by
  intro dates
  induction dates with
  | nil =>
    intro products calls kw h
    exact Or.inl h
  | cons d ds ih =>
    intro products calls kw h
    rw [qtdDatesGo] at h
    rcases hkw : tile_date_kw base tile (parse d) with msg | kw0 <;>
      simp only [hkw] at h
    · exact Or.inl h
    · rcases hout : (loop_query api kw0 mr tm).outcome with r | e | _ <;>
        simp only [hout] at h
      · rcases ih _ _ _ h with hc | ⟨d', hd', hkw'⟩
        · rcases mem_append_singleton hc with h1 | h2
          · exact Or.inl h1
          · exact Or.inr ⟨d, List.mem_cons_self d ds, h2 ▸ hkw⟩
        · exact Or.inr ⟨d', List.mem_cons_of_mem _ hd', hkw'⟩
      · rcases mem_append_singleton h with h1 | h2
        · exact Or.inl h1
        · exact Or.inr ⟨d, List.mem_cons_self d ds, h2 ▸ hkw⟩
      · rcases mem_append_singleton h with h1 | h2
        · exact Or.inl h1
        · exact Or.inr ⟨d, List.mem_cons_self d ds, h2 ▸ hkw⟩

theorem qtdTilesGo_calls_mem {ε μ σ : Type}
    (api : Params → Nat → Outcome ε (Dict String μ)) (mr : Nat)
    (tm : Option Nat) (parse : σ → Date) (base : Params) :
    ∀ (td : List (String × List σ)) (products : Dict String μ)
      (calls : List Params) (kw : Params),
      kw ∈ (qtdTilesGo api mr tm parse base td products calls).1 →
      kw ∈ calls ∨
        ∃ tile dates d, (tile, dates) ∈ td ∧ d ∈ dates ∧
          tile_date_kw base tile (parse d) = .ok kw := by
  intro td
  induction td with
  | nil =>
    intro products calls kw h
    exact Or.inl h
  | cons p rest ih =>
    obtain ⟨tile, dates⟩ := p
    intro products calls kw h
    rw [qtdTilesGo] at h
    rcases hq : qtdDatesGo api mr tm parse base tile dates products calls with
      ⟨calls2, res⟩
    have hcalls2 : calls2 =
        (qtdDatesGo api mr tm parse base tile dates products calls).1 := by
      rw [hq]
    rcases res with err | products2 <;> simp only [hq] at h
    · rcases qtdDatesGo_calls_mem api mr tm parse base tile dates products
          calls kw (hcalls2 ▸ h) with h1 | ⟨d', hd', hkw'⟩
      · exact Or.inl h1
      · exact Or.inr ⟨tile, dates, d', List.mem_cons_self _ _, hd', hkw'⟩
    · rcases ih _ _ _ h with hc | ⟨t', ds', d', ht', hd', hkw'⟩
      · rcases qtdDatesGo_calls_mem api mr tm parse base tile dates products
            calls kw (hcalls2 ▸ hc) with h1 | ⟨d', hd', hkw'⟩
        · exact Or.inl h1
        · exact Or.inr ⟨tile, dates, d',
            List.mem_cons_self _ _, hd', hkw'⟩
      · exact Or.inr ⟨t', ds', d', List.mem_cons_of_mem _ ht', hd', hkw'⟩

theorem qdGo_calls_mem {ε μ σ : Type}
    (api : Params → Nat → Outcome ε (Dict String μ)) (mr : Nat)
    (tm : Option Nat) (parse : σ → Date) (base : Params) :
    ∀ (dates : List σ) (products : Dict String μ) (calls : List Params)
      (kw : Params),
      kw ∈ (qdGo api mr tm parse base dates products calls).1 →
      kw ∈ calls ∨ ∃ d ∈ dates, kw = date_kw base (parse d) := by
  intro dates
  induction dates with
  | nil =>
    intro products calls kw h
    exact Or.inl h
  | cons d ds ih =>
    intro products calls kw h
    rw [qdGo] at h
    rcases hout : (loop_query api (date_kw base (parse d)) mr tm).outcome with
        r | e | _ <;> simp only [hout] at h
    · rcases ih _ _ _ h with hc | ⟨d', hd', hkw'⟩
      · rcases mem_append_singleton hc with h1 | h2
        · exact Or.inl h1
        · exact Or.inr ⟨d, List.mem_cons_self d ds, h2⟩
      · exact Or.inr ⟨d', List.mem_cons_of_mem _ hd', hkw'⟩
    · rcases mem_append_singleton h with h1 | h2
      · exact Or.inl h1
      · exact Or.inr ⟨d, List.mem_cons_self d ds, h2⟩
    · rcases mem_append_singleton h with h1 | h2
      · exact Or.inl h1
      · exact Or.inr ⟨d, List.mem_cons_self d ds, h2⟩

theorem qronGo_calls_mem {ε μ : Type}
    (api : Params → Nat → Outcome ε (Dict String μ)) (mr : Nat)
    (tm : Option Nat) (base : Params) :
    ∀ (rons : List Int) (products : Dict String μ) (calls : List Params)
      (kw : Params),
      kw ∈ (qronGo api mr tm base rons products calls).1 →
      kw ∈ calls ∨ ∃ ron ∈ rons, kw = ron_kw base ron := by
  intro rons
  induction rons with
  | nil =>
    intro products calls kw h
    exact Or.inl h
  | cons ron rons ih =>
    intro products calls kw h
    rw [qronGo] at h
    rcases hout : (loop_query api (ron_kw base ron) mr tm).outcome with
        r | e | _ <;> simp only [hout] at h
    · rcases ih _ _ _ h with hc | ⟨r', hr', hkw'⟩
      · rcases mem_append_singleton hc with h1 | h2
        · exact Or.inl h1
        · exact Or.inr ⟨ron, List.mem_cons_self ron rons, h2⟩
      · exact Or.inr ⟨r', List.mem_cons_of_mem _ hr', hkw'⟩
    · rcases mem_append_singleton h with h1 | h2
      · exact Or.inl h1
      · exact Or.inr ⟨ron, List.mem_cons_self ron rons, h2⟩
    · rcases mem_append_singleton h with h1 | h2
      · exact Or.inl h1
      · exact Or.inr ⟨ron, List.mem_cons_self ron rons, h2⟩

/-- Claim C8: every keyword-argument dictionary any of the three aggregators
passes to `loop_query` is derived afresh from the caller's base parameter
mapping and the current iteration's tile/date, date, or orbit number alone —
per-iteration mutations never leak into the base mapping (which, being a
copied value, is left unchanged) or into other iterations. -/
theorem aggregators_copy_base_params {ε μ σ : Type} :
    (∀ (api : Params → Nat → Outcome ε (Dict String μ))
        (tiles_dates : List (String × List σ)) (query_kwargs : Params)
        (parse : σ → Date) (mr : Nat) (tm : Option Nat) (kw : Params),
        kw ∈ (query_tiles_dates api tiles_dates query_kwargs parse mr tm).1 →
        ∃ tile dates date, (tile, dates) ∈ tiles_dates ∧ date ∈ dates ∧
          tile_date_kw query_kwargs tile (parse date) = .ok kw) ∧
    (∀ (api : Params → Nat → Outcome ε (Dict String μ)) (dates : List σ)
        (query_kwargs : Params) (parse : σ → Date) (mr : Nat)
        (tm : Option Nat) (kw : Params),
        kw ∈ (query_dates api dates query_kwargs parse mr tm).1 →
        ∃ date ∈ dates, kw = date_kw query_kwargs (parse date)) ∧
    (∀ (api : Params → Nat → Outcome ε (Dict String μ)) (rons : List Int)
        (query_kwargs : Params) (mr : Nat) (tm : Option Nat) (kw : Params),
        kw ∈ (query_rel_orbit_numbers api rons query_kwargs mr tm).1 →
        ∃ ron ∈ rons, kw = ron_kw query_kwargs ron) := by
  refine ⟨?_, ?_, ?_⟩
  · intro api tiles_dates query_kwargs parse mr tm kw h
    rcases qtdTilesGo_calls_mem api mr tm parse query_kwargs tiles_dates [] []
        kw h with h1 | ⟨tile, dates, date, ht, hd, hkw⟩
    · exact absurd h1 (List.not_mem_nil kw)
    · exact ⟨tile, dates, date, ht, hd, hkw⟩
  · intro api dates query_kwargs parse mr tm kw h
    rcases qdGo_calls_mem api mr tm parse query_kwargs dates [] [] kw h with
      h1 | h2
    · exact absurd h1 (List.not_mem_nil kw)
    · exact h2
  · intro api rons query_kwargs mr tm kw h
    rcases qronGo_calls_mem api mr tm query_kwargs rons [] [] kw h with
      h1 | h2
    · exact absurd h1 (List.not_mem_nil kw)
    · exact h2

theorem aggregators_copy_base_params_witness :
    (∃ tile dates date,
        (tile, dates) ∈ [("31TCJ", [(⟨2017, 6, 1⟩ : Date)])] ∧
        date ∈ dates ∧
        tile_date_kw [] tile (id date) =
          .ok [("date", PVal.dateRange ⟨2017, 6, 1⟩ ⟨2017, 6, 2⟩),
            ("tileid", PVal.str "31TCJ")]) ∧
    (∃ date ∈ [(⟨2017, 6, 1⟩ : Date)],
        [("date", PVal.dateRange ⟨2017, 6, 1⟩ ⟨2017, 6, 2⟩)] =
          date_kw [] (id date)) ∧
    (∃ ron ∈ [(14 : Int)],
        [("relativeorbitnumber", PVal.str "14")] = ron_kw [] ron) :=
  ⟨(aggregators_copy_base_params (ε := Nat) (μ := Nat) (σ := Date)).1
      (fun _ _ => .ok []) [("31TCJ", [⟨2017, 6, 1⟩])] [] id 5 (some 5)
      [("date", PVal.dateRange ⟨2017, 6, 1⟩ ⟨2017, 6, 2⟩),
        ("tileid", PVal.str "31TCJ")] (by decide),
    (aggregators_copy_base_params (ε := Nat) (μ := Nat) (σ := Date)).2.1
      (fun _ _ => .ok []) [⟨2017, 6, 1⟩] [] id 5 (some 5)
      [("date", PVal.dateRange ⟨2017, 6, 1⟩ ⟨2017, 6, 2⟩)] (by decide),
    (aggregators_copy_base_params (ε := Nat) (μ := Nat) (σ := Date)).2.2
      (fun _ _ => .ok []) [14] [] 5 (some 5)
      [("relativeorbitnumber", PVal.str "14")] (by decide)⟩

/-! ## Best-effort cleanup of empty files -/

theorem deleteEmptyGo_spec :
    ∀ (results : List (String × Dict String String)) (fs : FileSystem)
      (tr : DeleteTrace),
      (∀ p ∈ results, (Dict.lookup p.2 "path").isSome = true) →
      (∀ s ∈ recordedPaths results, (fs.getsize s).isSome = true) →
      (recordedPaths results).Nodup →
      ∃ fs', deleteEmptyGo fs results tr = .ok
        (⟨tr.attempts ++ (recordedPaths results).filter
            (fun s => decide (fs.getsize s = some 0)),
          tr.warnings ++ ((recordedPaths results).filter
              (fun s => decide (fs.getsize s = some 0))).filter
            (fun s => fs.removeRaises s)⟩, fs') := by
  intro results
  induction results with
  | nil =>
    intro fs tr _ _ _
    exact ⟨fs, by simp [deleteEmptyGo, recordedPaths]⟩
  | cons p rest ih =>
    obtain ⟨key, record⟩ := p
    intro fs tr h1 h2 h3
    obtain ⟨zipfile, hz⟩ := Option.isSome_iff_exists.1
      (h1 (key, record) (List.mem_cons_self _ _))
    have hrp : recordedPaths ((key, record) :: rest) =
        zipfile :: recordedPaths rest := by
      simp [recordedPaths, hz]
    rw [hrp] at h2 h3
    have hznotin : zipfile ∉ recordedPaths rest := List.Nodup.not_mem h3
    have h3' : (recordedPaths rest).Nodup := List.Nodup.of_cons h3
    have h1' : ∀ p ∈ rest, (Dict.lookup p.2 "path").isSome = true :=
      fun p hp => h1 p (List.mem_cons_of_mem _ hp)
    obtain ⟨n, hn⟩ := Option.isSome_iff_exists.1
      (h2 zipfile (List.mem_cons_self _ _))
    have h2' : ∀ s ∈ recordedPaths rest, (fs.getsize s).isSome = true :=
      fun s hs => h2 s (List.mem_cons_of_mem _ hs)
    rw [hrp]
    cases n with
    | succ m =>
      obtain ⟨fs', hfs'⟩ := ih fs tr h1' h2' h3'
      refine ⟨fs', ?_⟩
      simp only [deleteEmptyGo, hz, hn]
      rw [hfs']
      simp [List.filter_cons, hn]
    | zero =>
      cases hrm : fs.removeRaises zipfile with
      | true =>
        obtain ⟨fs', hfs'⟩ :=
          ih fs ⟨tr.attempts ++ [zipfile], tr.warnings ++ [zipfile]⟩ h1' h2'
            h3'
        refine ⟨fs', ?_⟩
        simp only [deleteEmptyGo, hz, hn]
        rw [if_pos hrm, hfs']
        simp [List.filter_cons, hn, hrm, List.append_assoc]
      | false =>
        have hgs : ∀ s ∈ recordedPaths rest,
            ((⟨fun p => if p = zipfile then none else fs.getsize p,
                fs.removeRaises⟩ : FileSystem).getsize s).isSome = true := by
          intro s hs
          have hne : s ≠ zipfile := fun heq => hznotin (heq ▸ hs)
          simpa [hne] using h2' s hs
        obtain ⟨fs', hfs'⟩ :=
          ih ⟨fun p => if p = zipfile then none else fs.getsize p,
              fs.removeRaises⟩
            ⟨tr.attempts ++ [zipfile], tr.warnings⟩ h1' hgs h3'
        have hfcongr : (recordedPaths rest).filter
            (fun s => decide ((if s = zipfile then none else fs.getsize s) =
              some 0)) =
            (recordedPaths rest).filter
              (fun s => decide (fs.getsize s = some 0)) := by
          refine List.filter_congr ?_
          intro s hs
          have hne : s ≠ zipfile := fun heq => hznotin (heq ▸ hs)
          simp [hne]
        dsimp only at hfs'
        rw [hfcongr] at hfs'
        refine ⟨fs', ?_⟩
        simp only [deleteEmptyGo, hz, hn]
        rw [if_neg (by rw [hrm]; exact Bool.false_ne_true), hfs']
        simp [List.filter_cons, hn, hrm, List.append_assoc]

/-- Claim C9: on a result collection whose records all carry a `'path'` and
whose paths are distinct and present on the file system, `delete_empty` never
raises; it attempts `os.remove` exactly on the entries whose file size is
zero bytes, and the entries whose removal fails are merely logged as
warnings while processing continues through the remaining entries. -/
theorem delete_empty_best_effort
    (results : List (String × Dict String String)) (fs : FileSystem)
    (h1 : ∀ p ∈ results, (Dict.lookup p.2 "path").isSome = true)
    (h2 : ∀ s ∈ recordedPaths results, (fs.getsize s).isSome = true)
    (h3 : (recordedPaths results).Nodup) :
    ∃ fs', delete_empty results fs = .ok
      (⟨(recordedPaths results).filter
          (fun s => decide (fs.getsize s = some 0)),
        ((recordedPaths results).filter
            (fun s => decide (fs.getsize s = some 0))).filter
          (fun s => fs.removeRaises s)⟩, fs') := by
  have h := deleteEmptyGo_spec results fs ⟨[], []⟩ h1 h2 h3
  simpa [delete_empty] using h

theorem delete_empty_best_effort_witness :
    ∃ fs', delete_empty [("k1", [("path", "a")]), ("k2", [("path", "b")])]
        ⟨fun p => if p = "a" then some 0 else some 10,
          fun p => decide (p = "a")⟩ = .ok
      (⟨(recordedPaths [("k1", [("path", "a")]), ("k2", [("path", "b")])]).filter
          (fun s => decide ((if s = "a" then some 0 else some 10) = some 0)),
        ((recordedPaths
              [("k1", [("path", "a")]), ("k2", [("path", "b")])]).filter
            (fun s => decide ((if s = "a" then some 0 else some 10) =
              some 0))).filter
          (fun s => decide (s = "a"))⟩, fs') :=
  delete_empty_best_effort [("k1", [("path", "a")]), ("k2", [("path", "b")])]
    ⟨fun p => if p = "a" then some 0 else some 10, fun p => decide (p = "a")⟩
    (by decide) (by decide) (by decide)

end SentinelsatUtils
